import Mathlib

/-!
Verification development for the ICMP reachability monitor
(`icmp_monitor.py`).  The Python source is shallowly embedded below:

* Python strings are modelled as `List Char`; the handful of string
  operations the program uses (`in`, `split(sep)`, `split()`, `splitlines`,
  `strip`, indexing the result of a split) are re-implemented by structural
  recursion so that concrete runs are kernel-computable.
* Python / SQLite floating point numbers are modelled as exact rationals
  `ℚ`.  The one operation with no exact rational meaning, `x ** 0.5`
  in `calculate_statistics`, is modelled over `ℝ` with `Real.sqrt`.
* `round(x, 2)` and the `"{:.1f}"` format use round-half-to-even (Python's
  documented rounding), `ROUND(x, 2)` in SQLite uses round-half-away-from-
  zero; both are idealized from binary floats to exact rationals.
* The SQLite views filter rows by a rolling time window; the embedding
  takes the list of in-window rows as the argument of the aggregate
  functions, which is exactly the multiset the SQL aggregates see.
  The three views `v_stats_01min` / `v_stats_05min` / `v_stats_15min`
  share one set of aggregate definitions because their SQL aggregate
  expressions are textually identical (the 1-minute view adds `variance`).
* Effects of one prober thread (`ping_address`) are modelled as a trace of
  actions: rows appended to `ping_results`, snapshot publications, sleeps,
  the echo-utility invocation, thread termination and thread crash.
-/

namespace IcmpMonitor

/-! ## Character-list utilities (Python `str` operations) -/

/-- `leadsWith pat s` : `s` starts with the run `pat` (helper for substring
search, mirroring Python's substring operator and `str.split(sep)`). -/
def leadsWith : List Char → List Char → Bool
  | [], _ => true
  | _ :: _, [] => false
  | p :: ps, c :: cs => p == c && leadsWith ps cs

/-- Index of the first occurrence of `pat` in `s`, if any. -/
def findSub (pat : List Char) : List Char → Option Nat
  | [] => if leadsWith pat [] then some 0 else none
  | c :: rest =>
    if leadsWith pat (c :: rest) then some 0
    else (findSub pat rest).map (· + 1)

/-- `s` contains `pat` as a contiguous run — Python's `pat in s`. -/
def hasSub (pat s : List Char) : Bool := (findSub pat s).isSome

/-- Fuel-indexed worker for `splitOnSub`; the fuel bounds the number of
separator occurrences, `s.length + 1` is always enough for `pat ≠ []`. -/
def splitSubF (pat : List Char) : Nat → List Char → List (List Char)
  | 0, s => [s]
  | Nat.succ fuel, s =>
    match findSub pat s with
    | none => [s]
    | some i => s.take i :: splitSubF pat fuel (s.drop (i + pat.length))

/-- Python `s.split(pat)` for a non-empty separator `pat`: the pieces of
`s` between non-overlapping left-to-right occurrences of `pat`. -/
def splitOnSub (pat s : List Char) : List (List Char) :=
  splitSubF pat (s.length + 1) s

/-- The piece `s.split(pat)[1]` used by `parse_ping_output`; total, with
`[]` for the (guarded-against) missing case. -/
def part1 (pat line : List Char) : List Char :=
  ((splitOnSub pat line).drop 1).headD []

/-- Split at every character satisfying `p`, keeping empty pieces
(the shape of Python `str.split` with an explicit separator). -/
def splitPred (p : Char → Bool) : List Char → List (List Char)
  | [] => [[]]
  | c :: rest =>
    if p c then [] :: splitPred p rest
    else
      match splitPred p rest with
      | [] => [[c]]
      | q :: qs => (c :: q) :: qs

/-- Python `s.split('.')` (used by the IPv4 check). -/
def splitDots (s : List Char) : List (List Char) := splitPred (· == '.') s

/-- Python whitespace `s.split()`: runs of whitespace separate tokens,
empty pieces are dropped. -/
def wsToks (s : List Char) : List (List Char) :=
  (splitPred Char.isWhitespace s).filter (fun t => !t.isEmpty)

/-- First whitespace token — Python `s.split()[0]`, `none` meaning the
`IndexError` raised when `s` is empty or all whitespace.  Subsumes the
`strip()` the source applies first. -/
def firstTok (s : List Char) : Option (List Char) := (wsToks s).head?

/-- Python `splitlines` restricted to `'\n'` separators, the only line
terminator the `ping` output contains.  (Python drops one trailing empty
line; the extra empty piece kept here matches no pattern and is inert.) -/
def splitLines (s : List Char) : List (List Char) := splitPred (· == '\n') s

/-! ## Numeric token parsing (Python `float` / `int`) -/

/-- Decimal digits to a natural number. -/
def digitsToNat (ds : List Char) : Nat :=
  ds.foldl (fun acc c => 10 * acc + (c.toNat - 48)) 0

/-- Strip an optional sign; `true` means negative. -/
def readSign : List Char → Bool × List Char
  | '-' :: r => (true, r)
  | '+' :: r => (false, r)
  | s => (false, s)

/-- Leading digit run and remainder. -/
def takeDigits (s : List Char) : List Char × List Char :=
  (s.takeWhile Char.isDigit, s.dropWhile Char.isDigit)

/-- Exponent suffix of a float literal: empty, or `e`/`E` with optional
sign and a non-empty digit run consuming the rest of the token. -/
def readExp : List Char → Option Int
  | [] => some 0
  | c :: r =>
    if c == 'e' || c == 'E' then
      let sn := readSign r
      let ds := takeDigits sn.2
      if ds.1.isEmpty || !ds.2.isEmpty then none
      else some (if sn.1 then -(digitsToNat ds.1 : Int) else (digitsToNat ds.1 : Int))
    else none

/-- Python `float(token)` on a whitespace-free token, as an exact rational:
optional sign, digits with optional fraction (at least one digit), optional
exponent.  (`inf`/`nan`/underscores never occur in `ping` output and are
not modelled.) -/
def pyFloat (t : List Char) : Option ℚ :=
  let sg := readSign t
  let ipr := takeDigits sg.2
  match ipr.2 with
  | '.' :: t3 =>
    let fpr := takeDigits t3
    if ipr.1.isEmpty && fpr.1.isEmpty then none
    else
      (readExp fpr.2).map fun e =>
        (if sg.1 then (-1 : ℚ) else 1) *
          ((digitsToNat ipr.1 : ℚ) + (digitsToNat fpr.1 : ℚ) / (10 : ℚ) ^ fpr.1.length) *
          (10 : ℚ) ^ e
  | _ =>
    if ipr.1.isEmpty then none
    else (readExp ipr.2).map fun e =>
      (if sg.1 then (-1 : ℚ) else 1) * (digitsToNat ipr.1 : ℚ) * (10 : ℚ) ^ e

/-- Python `int(token)` on a whitespace-free token: optional sign and a
digit run consuming the whole token. -/
def pyInt (t : List Char) : Option Int :=
  let sg := readSign t
  let ds := takeDigits sg.2
  if ds.1.isEmpty || !ds.2.isEmpty then none
  else some (if sg.1 then -(digitsToNat ds.1 : Int) else (digitsToNat ds.1 : Int))

/-! ## Rounding -/

/-- Round to the nearest integer, ties to even (Python `round` and the
`format` mini-language, idealized to exact rationals). -/
def rndHalfEven (q : ℚ) : Int :=
  if Int.fract q < 1 / 2 then ⌊q⌋
  else if (1 : ℚ) / 2 < Int.fract q then ⌊q⌋ + 1
  else if 2 ∣ ⌊q⌋ then ⌊q⌋ else ⌊q⌋ + 1

/-- Python `"{:.1f}"` followed by `float(...)`: one-decimal rounding. -/
def pyRound1 (q : ℚ) : ℚ := (rndHalfEven (10 * q) : ℚ) / 10

/-- Python `round(x, 2)`. -/
def pyRound2 (q : ℚ) : ℚ := (rndHalfEven (100 * q) : ℚ) / 100

/-- Round to the nearest integer, ties away from zero (SQLite `ROUND`). -/
def rndHalfAway (q : ℚ) : Int :=
  if 0 ≤ q then ⌊q + 1 / 2⌋ else -⌊-q + 1 / 2⌋

/-- SQLite `ROUND(x, 2)` as used by the three statistics views. -/
def sqlRound2 (q : ℚ) : ℚ := (rndHalfAway (100 * q) : ℚ) / 100

/-! ## `is_ipv4` (the dotted-quad regex) -/

/-- One octet of the regex
`25[0-5]|2[0-4][0-9]|[01]?[0-9][0-9]?`: one to three digits whose value is
at most 255 (leading zeros allowed, exactly as the alternation accepts). -/
def octetOk (p : List Char) : Bool :=
  !p.isEmpty && decide (p.length ≤ 3) && p.all Char.isDigit &&
    decide (digitsToNat p ≤ 255)

/-- The anchored body of the `is_ipv4` regex: four octets joined by dots. -/
def ipv4Core (s : List Char) : Bool :=
  decide ((splitDots s).length = 4) && (splitDots s).all octetOk

/-- `is_ipv4(addr)`: `re.match` with a `$` anchor also accepts one trailing
newline, hence the second disjunct. -/
def isIpv4 (s : List Char) : Bool :=
  ipv4Core s || (s.getLast? == some '\n' && ipv4Core s.dropLast)

/-! ## `parse_ping_output` -/

def timeTag : List Char := "time=".data
def ttlTag : List Char := "ttl=".data
def bytesFromTag : List Char := "bytes from".data

/-- Result of `parse_ping_output`: the three extracted pieces.  The
source keeps them as strings with `"-"` for "missing"; `timeStats` is
modelled by the rational value of the `"{:.1f}"`-formatted string
(`float` of that string re-reads exactly this value), the other two stay
raw tokens because their `int(...)` conversion happens later in
`ping_address`. -/
structure ParseOut where
  timeStats : Option ℚ
  ttlTok : Option (List Char)
  bytesTok : Option (List Char)
deriving DecidableEq

/-- `float(line.split("time=")[1].strip().split()[0])`, with `none` for
the `ValueError` / `IndexError` the source catches. -/
def timeValOfLine (line : List Char) : Option ℚ :=
  (firstTok (part1 timeTag line)).bind pyFloat

/-- `if "time=" in line: ...` — the branch catches its own
`ValueError` / `IndexError` and overwrites with `"-"` (our `none`). -/
def lineTime (line : List Char) (st : ParseOut) : ParseOut :=
  if hasSub timeTag line then
    { st with timeStats := (timeValOfLine line).map pyRound1 }
  else st

/-- `if "ttl=" in line: ttl_value = line.split("ttl=")[1].split()[0]` —
no handler, so an all-whitespace remainder raises `IndexError` (`none`). -/
def lineTtl (line : List Char) (st : ParseOut) : Option ParseOut :=
  if hasSub ttlTag line then
    match firstTok (part1 ttlTag line) with
    | none => none
    | some tok => some { st with ttlTok := some tok }
  else some st

/-- `if "bytes from" in line: bytes_value = line.split()[0]` — the
`IndexError` case is unreachable (such a line has a token). -/
def lineBytes (line : List Char) (st : ParseOut) : Option ParseOut :=
  if hasSub bytesFromTag line then
    match firstTok line with
    | none => none
    | some tok => some { st with bytesTok := some tok }
  else some st

/-- One iteration of the `for line in output.splitlines()` loop: the three
`if` blocks in source order. -/
def parseLine (st : ParseOut) (line : List Char) : Option ParseOut :=
  (lineTtl line (lineTime line st)).bind (lineBytes line)

def parseLinesGo : ParseOut → List (List Char) → Option ParseOut
  | st, [] => some st
  | st, l :: ls =>
    match parseLine st l with
    | none => none
    | some st' => parseLinesGo st' ls

/-- `parse_ping_output(output)`; `none` models the uncaught `IndexError`
escaping to (and killing) the prober thread. -/
def parsePingOutput (out : List Char) : Option ParseOut :=
  parseLinesGo ⟨none, none, none⟩ (splitLines out)

/-- The raw (pre-`"{:.1f}"`) value parsed after `time=`, tracking the same
last-match-wins loop — the specification-side companion of
`ParseOut.timeStats` used to state the one-decimal storage law. -/
def rawTimeStep (acc : Option ℚ) (line : List Char) : Option ℚ :=
  if hasSub timeTag line then timeValOfLine line else acc

def rawTime (out : List Char) : Option ℚ :=
  (splitLines out).foldl rawTimeStep none

/-! ## Rows and the prober (`save_ping_result`, `ping_address`) -/

/-- One row of `ping_results` as `save_ping_result` writes it (the
timestamp column is not needed by any claim about row contents). -/
structure PingRow where
  success : Bool
  latency : Option ℚ
  ttl : Option Int
  bytes : Option Int
deriving DecidableEq

/-- `int(tok) if tok != "-" else None` inside the `try` of
`ping_address`: `some v` is a normal outcome (`v` the column value),
`none` is a raised `ValueError`. -/
def convTok : Option (List Char) → Option (Option Int)
  | none => some none
  | some t =>
    match pyInt t with
    | some n => some (some n)
    | none => none

/-- The row saved on a zero exit code: all three converted values, or — if
`int()` raises on the ttl or bytes token — the bare
`save_ping_result(target_id, True)` fallback.  (`float(time_stats)`
cannot raise: `time_stats` is `"-"` or a `"{:.1f}"` rendering.) -/
def successRow (st : ParseOut) : PingRow :=
  match convTok st.ttlTok, convTok st.bytesTok with
  | some ti, some bi => ⟨true, st.timeStats, ti, bi⟩
  | _, _ => ⟨true, none, none, none⟩

/-- The row saved on a non-zero exit code: `save_ping_result(tid, False)`
with every optional column left at its `None` default. -/
def failRow : PingRow := ⟨false, none, none, none⟩

/-- A `results[target_id]` snapshot entry. -/
structure Outcome where
  pong : List Char
  bytesTok : Option (List Char)
  ttlTok : Option (List Char)
  timeQ : Option ℚ
  timestampText : List Char
  resolvedIp : Option (List Char)
deriving DecidableEq

def dnsFailTag : List Char := "dns_fail:".data
def failTag : List Char := "fail:".data

def dnsOutcome (ts : List Char) : Outcome :=
  ⟨"DNS Error".data, none, none, none, dnsFailTag ++ ts, none⟩

def okOutcome (st : ParseOut) (rip : Option (List Char)) (ts : List Char) : Outcome :=
  ⟨"Yes".data, st.bytesTok, st.ttlTok, st.timeStats, ts, rip⟩

def errOutcome (rip : Option (List Char)) (ts : List Char) : Outcome :=
  ⟨"Error".data, none, none, none, failTag ++ ts, rip⟩

/-- `time.sleep(PING_UPDATE_INTERVAL)` — 1.5 seconds. -/
def pingUpdateInterval : ℚ := 3 / 2

/-- Observable effects of a prober thread, in program order. -/
inductive ProbeAction
  | publish (o : Outcome)
  | sleep (secs : ℚ)
  | runPing
  | append (r : PingRow)
  | logError
  | threadExit
  | crash
deriving DecidableEq

/-- One environment-determined probe iteration: the echo utility's exit
code and stdout, and the wall-clock text of `datetime.now()`. -/
structure IterInput where
  exitCode : Nat
  stdout : List Char
  ts : List Char

/-- The `while True` body of `ping_address`, iterated over a finite
observation window of environment inputs (the real loop is endless; a
`crash` — the uncaught `IndexError` — cuts it short). -/
def proberGo (rip : Option (List Char)) : List IterInput → List ProbeAction
  | [] => []
  | inp :: rest =>
    if inp.exitCode = 0 then
      match parsePingOutput inp.stdout with
      | none => [.runPing, .crash]
      | some st =>
        .runPing :: .append (successRow st) :: .publish (okOutcome st rip inp.ts) ::
          .sleep pingUpdateInterval :: proberGo rip rest
    else
      .runPing :: .append failRow :: .publish (errOutcome rip inp.ts) ::
        .sleep pingUpdateInterval :: proberGo rip rest

/-- The loop including `run_ping_command`'s `shutil.which("ping")` check:
with no echo utility on PATH the first iteration raises
`FileNotFoundError`, which is caught, logged once, and breaks the loop —
the subprocess is never spawned. -/
def proberLoop (pingOnPath : Bool) (rip : Option (List Char))
    (iters : List IterInput) : List ProbeAction :=
  if pingOnPath then proberGo rip iters else [.logError, .threadExit]

/-- `ping_address(address_obj, results)` for one target: `dns` is the
oracle for `resolve_dns` (`none` = `socket.gaierror`), `tsD` the failure
timestamp text.  A failed initial resolution publishes the DNS-error
outcome, sleeps one interval and returns — the thread is finished. -/
def pingAddress (addr : List Char) (dns : Option (List Char)) (tsD : List Char)
    (pingOnPath : Bool) (iters : List IterInput) : List ProbeAction :=
  if isIpv4 addr then proberLoop pingOnPath none iters
  else
    match dns with
    | none => [.publish (dnsOutcome tsD), .sleep pingUpdateInterval, .threadExit]
    | some ip => proberLoop pingOnPath (some ip) iters

/-! ## The statistics views

The aggregate expressions of `v_stats_01min`, `v_stats_05min` and
`v_stats_15min` are identical (the 1-minute view adds `variance`); each is
evaluated over the `ping_results` rows of one target whose timestamp lies
in the view's window — that list of in-window rows is the argument below.
`CASE WHEN pr.success = 1 THEN pr.latency END` yields the latencies of
successful rows (`NULL` entries are skipped by `AVG`/`MIN`/`MAX`). -/

/-- The non-`NULL` values of `CASE WHEN pr.success = 1 THEN pr.latency END`. -/
def succLatencies (rows : List PingRow) : List ℚ :=
  rows.filterMap fun r => if r.success then r.latency else none

def listMean (l : List ℚ) : ℚ := l.sum / l.length

/-- `MIN` over the non-`NULL` operands. -/
def listMin : List ℚ → Option ℚ
  | [] => none
  | x :: xs =>
    some (match listMin xs with
          | none => x
          | some m => min x m)

/-- `MAX` over the non-`NULL` operands. -/
def listMax : List ℚ → Option ℚ
  | [] => none
  | x :: xs =>
    some (match listMax xs with
          | none => x
          | some m => max x m)

/-- `ROUND(AVG(CASE WHEN pr.success = 1 THEN pr.latency END), 2)`. -/
def avg_latency (rows : List PingRow) : Option ℚ :=
  if succLatencies rows = [] then none
  else some (sqlRound2 (listMean (succLatencies rows)))

/-- `ROUND(MIN(CASE WHEN pr.success = 1 THEN pr.latency END), 2)`. -/
def min_latency (rows : List PingRow) : Option ℚ :=
  (listMin (succLatencies rows)).map sqlRound2

/-- `ROUND(MAX(CASE WHEN pr.success = 1 THEN pr.latency END), 2)`. -/
def max_latency (rows : List PingRow) : Option ℚ :=
  (listMax (succLatencies rows)).map sqlRound2

/-- `COUNT(pr.id)` — the number of joined in-window rows. -/
def total_results (rows : List PingRow) : Nat := rows.length

/-- `COUNT(CASE WHEN pr.success = 1 THEN 1 END)`. -/
def success_results (rows : List PingRow) : Nat :=
  (rows.filter fun r => r.success).length

/-- `COUNT(CASE WHEN pr.success = 0 THEN 1 END)`. -/
def fail_results (rows : List PingRow) : Nat :=
  (rows.filter fun r => !r.success).length

/-- `ROUND(COUNT(success) * 100.0 / NULLIF(COUNT(pr.id), 0), 2)`. -/
def success_rate (rows : List PingRow) : Option ℚ :=
  if total_results rows = 0 then none
  else some (sqlRound2 ((success_results rows : ℚ) * 100 / (total_results rows : ℚ)))

/-- The `variance` column of `v_stats_01min`: the (rounded) mean squared
deviation of the in-window successful latencies from their own
(unrounded) mean; `NULL` when there is no such latency. -/
def variance01 (rows : List PingRow) : Option ℚ :=
  if succLatencies rows = [] then none
  else
    some (sqlRound2 (listMean ((succLatencies rows).map
      fun l => (l - listMean (succLatencies rows)) ^ 2)))

/-! ## `calculate_statistics`: adaptive window choice and the snapshot -/

/-- The three columns `SELECT`ed from `v_stats_15min` / `v_stats_05min`
(`total` is the `COUNT`, hence a natural number). -/
structure StatRow where
  avg : Option ℚ
  rate : Option ℚ
  total : Nat
deriving DecidableEq

/-- The four columns `SELECT`ed from `v_stats_01min`. -/
structure StatRow1 where
  avg : Option ℚ
  rate : Option ℚ
  total : Nat
  variance : Option ℚ
deriving DecidableEq

/-- `result_15m and result_15m[2] >= 10` (a `fetchone()` miss is falsy). -/
def pick15 : Option StatRow → Bool
  | some r => decide (10 ≤ r.total)
  | none => false

/-- `result_5m and result_5m[2] >= 5`. -/
def pick5 : Option StatRow → Bool
  | some r => decide (5 ≤ r.total)
  | none => false

/-- `result_1m and result_1m[2] >= 2`. -/
def pick1 : Option StatRow1 → Bool
  | some r => decide (2 ≤ r.total)
  | none => false

/-- The pre-publication per-target state of the adaptive algorithm:
`avg_latency, success_rate, total_results` and `window_used`. -/
structure Chosen where
  avg : Option ℚ
  rate : Option ℚ
  total : Nat
  window : String
deriving DecidableEq

/-- The `if/elif/elif/else` ladder of `calculate_statistics`; the default
arms repeat the initialisation `None, 0.0, 0, "collecting"` (they are
unreachable: a true `pick` forces a present row). -/
def chooseStats (r15 r5 : Option StatRow) (r1 : Option StatRow1) : Chosen :=
  if pick15 r15 then
    match r15 with
    | some r => ⟨r.avg, r.rate, r.total, "15min"⟩
    | none => ⟨none, some 0, 0, "collecting"⟩
  else if pick5 r5 then
    match r5 with
    | some r => ⟨r.avg, r.rate, r.total, "5min"⟩
    | none => ⟨none, some 0, 0, "collecting"⟩
  else if pick1 r1 then
    match r1 with
    | some r => ⟨r.avg, r.rate, r.total, "1min"⟩
    | none => ⟨none, some 0, 0, "collecting"⟩
  else ⟨none, some 0, 0, "collecting"⟩

/-- The `std_dev` local: `0.0` unless the 1-minute branch runs with a
non-`NULL` variance, in which case `variance ** 0.5` when positive. -/
noncomputable def stdDevRaw (r15 r5 : Option StatRow) (r1 : Option StatRow1) : ℝ :=
  if pick15 r15 then 0
  else if pick5 r5 then 0
  else if pick1 r1 then
    match r1 with
    | some r =>
      match r.variance with
      | some v => if 0 < v then Real.sqrt (v : ℝ) else 0
      | none => 0
    | none => 0
  else 0

/-- ties-to-even rounding on `ℝ`, for `round(std_dev, 2)`. -/
noncomputable def rndHalfEvenR (x : ℝ) : Int :=
  if Int.fract x < 1 / 2 then ⌊x⌋
  else if (1 : ℝ) / 2 < Int.fract x then ⌊x⌋ + 1
  else if 2 ∣ ⌊x⌋ then ⌊x⌋ else ⌊x⌋ + 1

noncomputable def pyRound2R (x : ℝ) : ℝ := (rndHalfEvenR (100 * x) : ℝ) / 100

/-- The published `new_stats[target_id]["std_dev"] = round(std_dev, 2)`. -/
noncomputable def snapStdDev (r15 r5 : Option StatRow) (r1 : Option StatRow1) : ℝ :=
  pyRound2R (stdDevRaw r15 r5 r1)

/-- `round(avg_latency, 2) if avg_latency else None` — Python truthiness:
both `None` and `0.0` fall to `None`. -/
def truthyAvg : Option ℚ → Option ℚ
  | none => none
  | some a => if a = 0 then none else some (pyRound2 a)

/-- `round(success_rate, 2) if success_rate else 0.0`. -/
def truthyRate : Option ℚ → ℚ
  | none => 0
  | some r => if r = 0 then 0 else pyRound2 r

/-- The published `TargetSnapshot` entry (minus `std_dev`, kept apart
because it lives in `ℝ`). -/
structure Snap where
  avgLatency : Option ℚ
  successRate : ℚ
  totalResults : Nat
  windowUsed : String
deriving DecidableEq

def publishSnap (r15 r5 : Option StatRow) (r1 : Option StatRow1) : Snap :=
  ⟨truthyAvg (chooseStats r15 r5 r1).avg,
   truthyRate (chooseStats r15 r5 r1).rate,
   (chooseStats r15 r5 r1).total,
   (chooseStats r15 r5 r1).window⟩

/-- The durable `ping_stats` row written by `INSERT OR REPLACE`: the same
published values keyed by target. -/
def pingStatsRow (tid : Nat) (r15 r5 : Option StatRow) (r1 : Option StatRow1) :
    Nat × Option ℚ × ℚ × Nat :=
  (tid, (publishSnap r15 r5 r1).avgLatency, (publishSnap r15 r5 r1).successRate,
    (publishSnap r15 r5 r1).totalResults)

/-! ## Startup (`load_addresses`, `main`) -/

/-- The three outcomes of reading `icmp_monitor.json`. -/
inductive ConfigRead
  | missing
  | malformed
  | parsed (targets : List (Nat × List Char × List Char))

/-- The default four-target configuration written on first run. -/
def defaultTargets : List (Nat × List Char × List Char) :=
  [(1, "1.1.1.1".data, "Cloudflare DNS Primary".data),
   (2, "1.0.0.1".data, "Cloudflare DNS Secondary".data),
   (3, "8.8.8.8".data, "Google DNS Primary".data),
   (4, "8.8.4.4".data, "Google DNS Secondary".data)]

/-- `load_addresses()`: a missing file is replaced by the default and the
program proceeds; malformed JSON calls `sys.exit(1)`. -/
def loadAddresses : ConfigRead → Except Nat (List (Nat × List Char × List Char))
  | .missing => .ok defaultTargets
  | .malformed => .error 1
  | .parsed ts => .ok ts

inductive ProcessFate
  | exitedAtStartup (code : Nat)
  | running
deriving DecidableEq

/-- Process-level startup: module-level `load_addresses()` (exit 1 on bad
JSON), then `main()` runs `init_database()` (an unhandled sqlite error
ends the interpreter with code 1) and starts the worker threads.  `main`
never consults `shutil.which("ping")`: the `pingOnPath` argument is
deliberately unused, recording that startup is independent of the echo
utility's availability. -/
def processFate (cfg : ConfigRead) (storeOk : Bool) (_pingOnPath : Bool) : ProcessFate :=
  match loadAddresses cfg with
  | .error c => .exitedAtStartup c
  | .ok _ => if storeOk then .running else .exitedAtStartup 1

/-! ## Helper lemmas: rounding -/

theorem rndHalfAway_mono {a b : ℚ} (h : a ≤ b) : rndHalfAway a ≤ rndHalfAway b := by
  unfold rndHalfAway
  split_ifs with ha hb hb
  · exact Int.floor_le_floor (by linarith)
  · exact absurd (le_trans ha h) hb
  · have h1 : (0 : ℤ) ≤ ⌊b + 1 / 2⌋ := Int.floor_nonneg.mpr (by linarith)
    have h2 : (0 : ℤ) ≤ ⌊-a + 1 / 2⌋ := Int.floor_nonneg.mpr (by push_neg at ha; linarith)
    omega
  · have : ⌊-b + 1 / 2⌋ ≤ ⌊-a + 1 / 2⌋ := Int.floor_le_floor (by linarith)
    omega

theorem sqlRound2_mono {a b : ℚ} (h : a ≤ b) : sqlRound2 a ≤ sqlRound2 b := by
  unfold sqlRound2
  have := rndHalfAway_mono (show 100 * a ≤ 100 * b by linarith)
  have hc : ((rndHalfAway (100 * a) : ℚ)) ≤ (rndHalfAway (100 * b) : ℚ) := by exact_mod_cast this
  linarith

theorem rndHalfAway_nonneg {q : ℚ} (h : 0 ≤ q) : 0 ≤ rndHalfAway q := by
  unfold rndHalfAway
  rw [if_pos h]
  exact Int.floor_nonneg.mpr (by linarith)

theorem sqlRound2_nonneg {q : ℚ} (h : 0 ≤ q) : 0 ≤ sqlRound2 q := by
  unfold sqlRound2
  have := rndHalfAway_nonneg (show (0 : ℚ) ≤ 100 * q by linarith)
  have hc : (0 : ℚ) ≤ (rndHalfAway (100 * q) : ℚ) := by exact_mod_cast this
  linarith

theorem pyRound2R_zero : pyRound2R 0 = 0 := by
  unfold pyRound2R rndHalfEvenR
  norm_num

theorem pyRound2R_nonneg {x : ℝ} (hx : 0 ≤ x) : 0 ≤ pyRound2R x := by
  unfold pyRound2R rndHalfEvenR
  have h : (0 : ℤ) ≤ ⌊(100 : ℝ) * x⌋ := Int.floor_nonneg.mpr (by linarith)
  have h0 : (0 : ℝ) ≤ (⌊(100 : ℝ) * x⌋ : ℝ) := by exact_mod_cast h
  have h1 : (0 : ℝ) ≤ (⌊(100 : ℝ) * x⌋ + 1 : ℤ) := by
    push_cast
    linarith
  split_ifs <;> positivity

/-! ## Helper lemmas: list aggregates -/

theorem listMin_eq_none {l : List ℚ} : listMin l = none ↔ l = [] := by
  cases l <;> simp [listMin]

theorem listMax_eq_none {l : List ℚ} : listMax l = none ↔ l = [] := by
  cases l <;> simp [listMax]

theorem listMin_le {l : List ℚ} {m : ℚ} (h : listMin l = some m) :
    ∀ x ∈ l, m ≤ x := by
  induction l generalizing m with
  | nil => simp [listMin] at h
  | cons x xs ih =>
    simp only [listMin, Option.some.injEq] at h
    cases hxs : listMin xs with
    | none =>
      rw [hxs] at h
      have : xs = [] := listMin_eq_none.mp hxs
      subst this
      simpa using h.symm.le
    | some m' =>
      rw [hxs] at h
      intro y hy
      rcases List.mem_cons.mp hy with rfl | hy
      · rw [← h]; exact min_le_left _ _
      · calc m ≤ m' := by rw [← h]; exact min_le_right _ _
          _ ≤ y := ih hxs y hy

theorem le_listMax {l : List ℚ} {m : ℚ} (h : listMax l = some m) :
    ∀ x ∈ l, x ≤ m := by
  induction l generalizing m with
  | nil => simp [listMax] at h
  | cons x xs ih =>
    simp only [listMax, Option.some.injEq] at h
    cases hxs : listMax xs with
    | none =>
      rw [hxs] at h
      have : xs = [] := listMax_eq_none.mp hxs
      subst this
      simpa using h.le
    | some m' =>
      rw [hxs] at h
      intro y hy
      rcases List.mem_cons.mp hy with rfl | hy
      · rw [← h]; exact le_max_left _ _
      · calc y ≤ m' := ih hxs y hy
          _ ≤ m := by rw [← h]; exact le_max_right _ _

theorem card_mul_le_sum {l : List ℚ} {m : ℚ} (h : ∀ x ∈ l, m ≤ x) :
    (l.length : ℚ) * m ≤ l.sum := by
  induction l with
  | nil => simp
  | cons x xs ih =>
    have hx := h x (List.mem_cons_self x xs)
    have hxs := ih fun y hy => h y (List.mem_cons_of_mem x hy)
    simp only [List.sum_cons, List.length_cons]
    push_cast
    linarith

theorem sum_le_card_mul {l : List ℚ} {m : ℚ} (h : ∀ x ∈ l, x ≤ m) :
    l.sum ≤ (l.length : ℚ) * m := by
  induction l with
  | nil => simp
  | cons x xs ih =>
    have hx := h x (List.mem_cons_self x xs)
    have hxs := ih fun y hy => h y (List.mem_cons_of_mem x hy)
    simp only [List.sum_cons, List.length_cons]
    push_cast
    linarith

theorem listMin_le_mean {l : List ℚ} (hne : l ≠ []) {m : ℚ}
    (hm : listMin l = some m) : m ≤ listMean l := by
  have hlen : (0 : ℚ) < l.length := by
    have := List.length_pos.mpr hne
    exact_mod_cast this
  rw [listMean, le_div_iff₀ hlen, mul_comm]
  exact card_mul_le_sum (listMin_le hm)

theorem mean_le_listMax {l : List ℚ} (hne : l ≠ []) {m : ℚ}
    (hm : listMax l = some m) : listMean l ≤ m := by
  have hlen : (0 : ℚ) < l.length := by
    have := List.length_pos.mpr hne
    exact_mod_cast this
  rw [listMean, div_le_iff₀ hlen, mul_comm]
  exact sum_le_card_mul (le_listMax hm)

theorem listMean_sq_nonneg (l : List ℚ) (c : ℚ) :
    0 ≤ listMean (l.map fun x => (x - c) ^ 2) := by
  rw [listMean]
  apply div_nonneg _ (by positivity)
  apply List.sum_nonneg
  intro x hx
  rcases List.mem_map.mp hx with ⟨y, _, rfl⟩
  positivity

theorem succLatencies_eq_nil_of_no_success {rows : List PingRow}
    (h : success_results rows = 0) : succLatencies rows = [] := by
  induction rows with
  | nil => rfl
  | cons r rest ih =>
    unfold success_results at h ih
    unfold succLatencies at ih ⊢
    by_cases hr : r.success
    · simp [hr] at h
    · simp only [List.filterMap_cons, List.filter_cons] at h ⊢
      simp only [hr] at h ⊢
      simpa using ih (by simpa using h)

/-! ## Helper lemmas: parsing -/

theorem lineTtl_timeStats {st st' : ParseOut} {line : List Char}
    (h : lineTtl line st = some st') : st'.timeStats = st.timeStats := by
  unfold lineTtl at h
  split at h
  · cases hft : firstTok (part1 ttlTag line) <;> rw [hft] at h
    · cases h
    · cases h; rfl
  · cases h; rfl

theorem lineBytes_timeStats {st st' : ParseOut} {line : List Char}
    (h : lineBytes line st = some st') : st'.timeStats = st.timeStats := by
  unfold lineBytes at h
  split at h
  · cases hft : firstTok line <;> rw [hft] at h
    · cases h
    · cases h; rfl
  · cases h; rfl

theorem lineTime_timeStats (line : List Char) (st : ParseOut) :
    (lineTime line st).timeStats =
      if hasSub timeTag line then (timeValOfLine line).map pyRound1
      else st.timeStats := by
  unfold lineTime
  split <;> rfl

theorem parseLine_timeStats {st st' : ParseOut} {line : List Char}
    (h : parseLine st line = some st') :
    st'.timeStats =
      if hasSub timeTag line then (timeValOfLine line).map pyRound1
      else st.timeStats := by
  unfold parseLine at h
  cases hT : lineTtl line (lineTime line st) with
  | none => rw [hT] at h; cases h
  | some st2 =>
    rw [hT] at h
    have h2 : lineBytes line st2 = some st' := h
    rw [lineBytes_timeStats h2, lineTtl_timeStats hT, lineTime_timeStats]

theorem successRow_success (st : ParseOut) : (successRow st).success = true := by
  unfold successRow
  rcases convTok st.ttlTok with _ | ti <;> rcases convTok st.bytesTok with _ | bi <;> rfl

theorem parseLinesGo_timeStats :
    ∀ (lines : List (List Char)) (st st' : ParseOut) (acc : Option ℚ),
      st.timeStats = acc.map pyRound1 →
      parseLinesGo st lines = some st' →
      st'.timeStats = (lines.foldl rawTimeStep acc).map pyRound1 := by
  intro lines
  induction lines with
  | nil =>
    intro st st' acc hinv h
    unfold parseLinesGo at h
    cases h
    simpa using hinv
  | cons l ls ih =>
    intro st st' acc hinv h
    unfold parseLinesGo at h
    cases hpl : parseLine st l with
    | none => rw [hpl] at h; cases h
    | some st1 =>
      rw [hpl] at h
      have hstep : st1.timeStats = (rawTimeStep acc l).map pyRound1 := by
        rw [parseLine_timeStats hpl]
        unfold rawTimeStep
        by_cases hc : hasSub timeTag l <;> simp [hc, hinv]
      rw [List.foldl_cons]
      exact ih st1 st' (rawTimeStep acc l) hstep h

/-- Every latency the parser hands on is the `"{:.1f}"` rounding of the
raw value parsed after `time=`. -/
theorem parse_timeStats_rawTime {out : List Char} {st : ParseOut}
    (h : parsePingOutput out = some st) :
    st.timeStats = (rawTime out).map pyRound1 :=
  parseLinesGo_timeStats (splitLines out) _ st none rfl h

/-! ## Helper lemmas: prober traces -/

theorem proberGo_append {rip : Option (List Char)} {iters : List IterInput}
    {r : PingRow} (hmem : ProbeAction.append r ∈ proberGo rip iters) :
    (∃ st, r = successRow st) ∨ r = failRow := by
  induction iters with
  | nil => simp [proberGo] at hmem
  | cons inp rest ih =>
    unfold proberGo at hmem
    split at hmem
    · cases hp : parsePingOutput inp.stdout <;> rw [hp] at hmem
      · simp at hmem
      · simp only [List.mem_cons] at hmem
        rcases hmem with h | h | h | h | h
        · cases h
        · exact Or.inl ⟨_, by injection h⟩
        · cases h
        · cases h
        · exact ih h
    · simp only [List.mem_cons] at hmem
      rcases hmem with h | h | h | h | h
      · cases h
      · exact Or.inr (by injection h)
      · cases h
      · cases h
      · exact ih h

theorem proberLoop_append {p : Bool} {rip : Option (List Char)}
    {iters : List IterInput} {r : PingRow}
    (hmem : ProbeAction.append r ∈ proberLoop p rip iters) :
    (∃ st, r = successRow st) ∨ r = failRow := by
  unfold proberLoop at hmem
  split at hmem
  · exact proberGo_append hmem
  · simp at hmem

theorem pingAddress_append {addr : List Char} {dns : Option (List Char)}
    {tsD : List Char} {p : Bool} {iters : List IterInput} {r : PingRow}
    (hmem : ProbeAction.append r ∈ pingAddress addr dns tsD p iters) :
    (∃ st, r = successRow st) ∨ r = failRow := by
  unfold pingAddress at hmem
  split at hmem
  · exact proberLoop_append hmem
  · cases dns with
    | none => simp at hmem
    | some ip => exact proberLoop_append hmem

/-! ## Helper lemmas: window choice -/

theorem chooseStats_window (a b : StatRow) (c : StatRow1) :
    (chooseStats (some a) (some b) (some c)).window =
      if 10 ≤ a.total then "15min"
      else if 5 ≤ b.total then "5min"
      else if 2 ≤ c.total then "1min"
      else "collecting" := by
  unfold chooseStats pick15 pick5 pick1
  by_cases h15 : 10 ≤ a.total <;> by_cases h5 : 5 ≤ b.total <;>
    by_cases h1c : 2 ≤ c.total <;> simp [h15, h5, h1c]

theorem stdDevRaw_nonneg (r15 r5 : Option StatRow) (r1 : Option StatRow1) :
    0 ≤ stdDevRaw r15 r5 r1 := by
  unfold stdDevRaw
  split_ifs with h15 h5 h1c
  · exact le_refl 0
  · exact le_refl 0
  · cases r1 with
    | none => exact le_refl 0
    | some r =>
      cases hv : r.variance with
      | none => simp [hv]
      | some v =>
        simp only [hv]
        split_ifs
        · exact Real.sqrt_nonneg _
        · exact le_refl 0
  · exact le_refl 0

theorem succLatencies_map_round (xs : List ℚ) :
    succLatencies (xs.map fun x => ⟨true, some (pyRound1 x), none, none⟩) =
      xs.map pyRound1 := by
  induction xs with
  | nil => rfl
  | cons x l ih =>
    unfold succLatencies at ih ⊢
    simp only [List.map_cons, List.filterMap_cons] at ih ⊢
    simpa using ih

/-! ## Claim theorems -/

/-- C1.  Given the three window rows returned by the `v_stats_15min`,
`v_stats_05min` and `v_stats_01min` queries, `calculate_statistics`
chooses the window by the strict first-match rule on the three total
counts — 15min if `total(15m) ≥ 10`, else 5min if `total(5m) ≥ 5`, else
1min if `total(1m) ≥ 2`, else `collecting` with all numerics absent or
zero — and the choice is a deterministic function of the three totals. -/
theorem window_rule_first_match (r15 r5 : StatRow) (r1 : StatRow1) :
    ((chooseStats (some r15) (some r5) (some r1)).window =
      if 10 ≤ r15.total then "15min"
      else if 5 ≤ r5.total then "5min"
      else if 2 ≤ r1.total then "1min"
      else "collecting")
    ∧ ((chooseStats (some r15) (some r5) (some r1)).window = "collecting" →
        publishSnap (some r15) (some r5) (some r1) = ⟨none, 0, 0, "collecting"⟩
        ∧ snapStdDev (some r15) (some r5) (some r1) = 0)
    ∧ (∀ (s15 s5 : StatRow) (s1 : StatRow1),
        s15.total = r15.total → s5.total = r5.total → s1.total = r1.total →
        (chooseStats (some s15) (some s5) (some s1)).window =
          (chooseStats (some r15) (some r5) (some r1)).window) := by
  refine ⟨chooseStats_window r15 r5 r1, ?_, ?_⟩
  · intro hcol
    rw [chooseStats_window] at hcol
    by_cases h15 : 10 ≤ r15.total
    · rw [if_pos h15] at hcol; exact absurd hcol (by decide)
    rw [if_neg h15] at hcol
    by_cases h5 : 5 ≤ r5.total
    · rw [if_pos h5] at hcol; exact absurd hcol (by decide)
    rw [if_neg h5] at hcol
    by_cases h1c : 2 ≤ r1.total
    · rw [if_pos h1c] at hcol; exact absurd hcol (by decide)
    constructor
    · unfold publishSnap chooseStats pick15 pick5 pick1 truthyAvg truthyRate
      simp [h15, h5, h1c]
    · unfold snapStdDev stdDevRaw pick15 pick5 pick1
      simp [h15, h5, h1c, pyRound2R_zero]
  · intro s15 s5 s1 e15 e5 e1
    rw [chooseStats_window, chooseStats_window, e15, e5, e1]

/-- Witness for C1 at a concrete all-empty input: the chosen window is
`collecting` and every numeric is absent or zero. -/
theorem window_rule_first_match_case :
    (chooseStats (some ⟨none, none, 0⟩) (some ⟨none, none, 0⟩)
        (some ⟨none, none, 0, none⟩)).window = "collecting"
    ∧ publishSnap (some ⟨none, none, 0⟩) (some ⟨none, none, 0⟩)
        (some ⟨none, none, 0, none⟩) = ⟨none, 0, 0, "collecting"⟩
    ∧ snapStdDev (some ⟨none, none, 0⟩) (some ⟨none, none, 0⟩)
        (some ⟨none, none, 0, none⟩) = 0 := by
  have hw : (chooseStats (some ⟨none, none, 0⟩) (some ⟨none, none, 0⟩)
      (some ⟨none, none, 0, none⟩)).window = "collecting" := by decide
  have h := (window_rule_first_match ⟨none, none, 0⟩ ⟨none, none, 0⟩
    ⟨none, none, 0, none⟩).2.1 hw
  exact ⟨hw, h.1, h.2⟩

/-- C2 counterexample.  At a 1-minute window with `variance = 2` the
published `std_dev` is `round(√2, 2)`, which is rational, hence not the
irrational exact square root the claim asserts. -/
theorem std_dev_exact_sqrt_fails :
    (chooseStats (some ⟨none, none, 0⟩) (some ⟨none, none, 0⟩)
        (some ⟨some 10, some 100, 2, some 2⟩)).window = "1min"
    ∧ snapStdDev (some ⟨none, none, 0⟩) (some ⟨none, none, 0⟩)
        (some ⟨some 10, some 100, 2, some 2⟩) ≠ Real.sqrt 2 := by
  refine ⟨by decide, ?_⟩
  intro h
  have hraw : stdDevRaw (some ⟨none, none, 0⟩) (some ⟨none, none, 0⟩)
      (some ⟨some 10, some 100, 2, some 2⟩) = Real.sqrt 2 := by
    unfold stdDevRaw pick15 pick5 pick1
    norm_num
  rw [snapStdDev, hraw] at h
  unfold pyRound2R at h
  have hirr : Irrational (Real.sqrt 2) := irrational_sqrt_two
  exact hirr ⟨(rndHalfEvenR (100 * Real.sqrt 2) : ℚ) / 100, by push_cast [h]; rfl⟩

/-- C2 amended.  The `std_dev` published in the snapshot equals the
square root of the 1-minute variance **rounded to two decimals** when the
chosen window is `1min` and the variance is present and positive; it is
`0` whenever the chosen window is not `1min`; `variance(1m) ≥ 0` and
`std_dev ≥ 0` always hold. -/
theorem std_dev_rounded_sqrt (r15 r5 : StatRow) (r1 : StatRow1) :
    (∀ v : ℚ, (chooseStats (some r15) (some r5) (some r1)).window = "1min" →
      r1.variance = some v → 0 < v →
      snapStdDev (some r15) (some r5) (some r1) = pyRound2R (Real.sqrt (v : ℝ)))
    ∧ ((chooseStats (some r15) (some r5) (some r1)).window ≠ "1min" →
      snapStdDev (some r15) (some r5) (some r1) = 0)
    ∧ (∀ (rows : List PingRow) (v : ℚ), variance01 rows = some v → 0 ≤ v)
    ∧ 0 ≤ snapStdDev (some r15) (some r5) (some r1) := by
  have hwin := chooseStats_window r15 r5 r1
  refine ⟨?_, ?_, ?_, pyRound2R_nonneg (stdDevRaw_nonneg _ _ _)⟩
  · intro v h1m hv hpos
    rw [hwin] at h1m
    by_cases h15 : 10 ≤ r15.total
    · rw [if_pos h15] at h1m; exact absurd h1m (by decide)
    rw [if_neg h15] at h1m
    by_cases h5 : 5 ≤ r5.total
    · rw [if_pos h5] at h1m; exact absurd h1m (by decide)
    rw [if_neg h5] at h1m
    by_cases h1c : 2 ≤ r1.total
    · unfold snapStdDev stdDevRaw pick15 pick5 pick1
      simp [h15, h5, h1c, hv, hpos]
    · rw [if_neg h1c] at h1m; exact absurd h1m (by decide)
  · intro hne
    rw [hwin] at hne
    unfold snapStdDev stdDevRaw pick15 pick5 pick1
    by_cases h15 : 10 ≤ r15.total
    · simp [h15, pyRound2R_zero]
    by_cases h5 : 5 ≤ r5.total
    · simp [h15, h5, pyRound2R_zero]
    by_cases h1c : 2 ≤ r1.total
    · rw [if_neg h15, if_neg h5, if_pos h1c] at hne
      exact absurd rfl hne
    · simp [h15, h5, h1c, pyRound2R_zero]
  · intro rows v hv
    unfold variance01 at hv
    split_ifs at hv with hnil
    cases hv
    exact sqlRound2_nonneg (listMean_sq_nonneg _ _)

/-- Witness for C2 amended: with a 1-minute window and `variance = 4` the
published `std_dev` is `round(√4, 2)`. -/
theorem std_dev_rounded_sqrt_case :
    (chooseStats (some ⟨none, none, 0⟩) (some ⟨none, none, 0⟩)
        (some ⟨some 10, some 100, 2, some 4⟩)).window = "1min"
    ∧ snapStdDev (some ⟨none, none, 0⟩) (some ⟨none, none, 0⟩)
        (some ⟨some 10, some 100, 2, some 4⟩) =
      pyRound2R (Real.sqrt ((4 : ℚ) : ℝ)) := by
  have hw : (chooseStats (some ⟨none, none, 0⟩) (some ⟨none, none, 0⟩)
      (some ⟨some 10, some 100, 2, some 4⟩)).window = "1min" := by decide
  exact ⟨hw, (std_dev_rounded_sqrt ⟨none, none, 0⟩ ⟨none, none, 0⟩
    ⟨some 10, some 100, 2, some 4⟩).1 4 hw rfl (by norm_num)⟩

/-- C3.  Every row a prober ever appends to the store with
`success = false` has `latency`, `ttl` and `bytes` all absent. -/
theorem failed_rows_all_absent (addr : List Char) (dns : Option (List Char))
    (tsD : List Char) (p : Bool) (iters : List IterInput) (r : PingRow)
    (hmem : ProbeAction.append r ∈ pingAddress addr dns tsD p iters)
    (hf : r.success = false) :
    r.latency = none ∧ r.ttl = none ∧ r.bytes = none := by
  rcases pingAddress_append hmem with ⟨st, rfl⟩ | rfl
  · rw [successRow_success] at hf
    cases hf
  · exact ⟨rfl, rfl, rfl⟩

/-- Witness for C3: a concrete failed probe appends the all-absent row. -/
theorem failed_rows_all_absent_case :
    ProbeAction.append failRow ∈
      pingAddress "1.1.1.1".data none "t".data true [⟨1, [], "t".data⟩]
    ∧ failRow.latency = none ∧ failRow.ttl = none ∧ failRow.bytes = none := by
  have hmem : ProbeAction.append failRow ∈
      pingAddress "1.1.1.1".data none "t".data true [⟨1, [], "t".data⟩] :=
    of_decide_eq_true (by with_unfolding_all rfl)
  exact ⟨hmem, failed_rows_all_absent _ _ _ _ _ _ hmem rfl⟩

/-- C4 counterexample.  A window holding one successful row whose latency
is `NULL` (produced by a zero-exit probe whose stdout has no `time=`
field) has `total_results = 1` and `success_results = 1`, yet
`avg_latency`, `min_latency` and `max_latency` are all `NULL` — so the
claimed `min ≤ avg ≤ max` cannot hold there. -/
theorem latency_bounds_null_success :
    parsePingOutput "64 bytes from 1.1.1.1: icmp_seq=1 ttl=64".data =
      some ⟨none, some "64".data, some "64".data⟩
    ∧ successRow ⟨none, some "64".data, some "64".data⟩ =
      ⟨true, none, some 64, some 64⟩
    ∧ total_results [⟨true, none, some 64, some 64⟩] = 1
    ∧ success_results [⟨true, none, some 64, some 64⟩] = 1
    ∧ avg_latency [⟨true, none, some 64, some 64⟩] = none
    ∧ min_latency [⟨true, none, some 64, some 64⟩] = none
    ∧ max_latency [⟨true, none, some 64, some 64⟩] = none :=
  of_decide_eq_true (by with_unfolding_all rfl)

/-- C4 amended.  In each window view, whenever at least one success with
a non-`NULL` latency is present, `min_latency`, `avg_latency` and
`max_latency` are all present and the rounded
`min_latency ≤ avg_latency ≤ max_latency` hold; all three are absent
whenever `success_results = 0`.  (The third conjunct settles the corner
the counterexample exhibits universally: with no non-`NULL` success
latency at all, the three aggregates are `NULL`; the `success_results =
0` clause of the claim follows from it as the fourth conjunct.) -/
theorem latency_bounds_amended (rows : List PingRow) :
    (∀ a b c : ℚ, min_latency rows = some a → avg_latency rows = some b →
      max_latency rows = some c → a ≤ b ∧ b ≤ c)
    ∧ (succLatencies rows ≠ [] →
        ∃ a b c : ℚ, min_latency rows = some a ∧ avg_latency rows = some b ∧
          max_latency rows = some c)
    ∧ (succLatencies rows = [] →
        min_latency rows = none ∧ avg_latency rows = none ∧
          max_latency rows = none)
    ∧ (success_results rows = 0 →
        min_latency rows = none ∧ avg_latency rows = none ∧
          max_latency rows = none) := by
  have habsent : succLatencies rows = [] →
      min_latency rows = none ∧ avg_latency rows = none ∧
        max_latency rows = none := by
    intro h
    simp [min_latency, avg_latency, max_latency, h, listMin, listMax]
  refine ⟨?_, ?_, habsent,
    fun h0 => habsent (succLatencies_eq_nil_of_no_success h0)⟩
  · intro a b c hmin havg hmax
    unfold avg_latency at havg
    split_ifs at havg with hnil
    cases havg
    unfold min_latency at hmin
    unfold max_latency at hmax
    rcases Option.map_eq_some'.mp hmin with ⟨m, hm, rfl⟩
    rcases Option.map_eq_some'.mp hmax with ⟨M, hM, rfl⟩
    exact ⟨sqlRound2_mono (listMin_le_mean hnil hm),
      sqlRound2_mono (mean_le_listMax hnil hM)⟩
  · intro hne
    obtain ⟨m, hm⟩ : ∃ m, listMin (succLatencies rows) = some m := by
      cases h : listMin (succLatencies rows) with
      | none => exact absurd (listMin_eq_none.mp h) hne
      | some m => exact ⟨m, rfl⟩
    obtain ⟨M, hM⟩ : ∃ M, listMax (succLatencies rows) = some M := by
      cases h : listMax (succLatencies rows) with
      | none => exact absurd (listMax_eq_none.mp h) hne
      | some M => exact ⟨M, rfl⟩
    exact ⟨sqlRound2 m, sqlRound2 (listMean (succLatencies rows)), sqlRound2 M,
      by simp [min_latency, hm], by simp [avg_latency, hne],
      by simp [max_latency, hM]⟩

/-- Witness for C4 amended at a two-success window: `min = 1 ≤ avg = 2 ≤
max = 3` on the rounded outputs. -/
theorem latency_bounds_amended_case :
    min_latency [⟨true, some 1, none, none⟩, ⟨true, some 3, none, none⟩] = some 1
    ∧ avg_latency [⟨true, some 1, none, none⟩, ⟨true, some 3, none, none⟩] = some 2
    ∧ max_latency [⟨true, some 1, none, none⟩, ⟨true, some 3, none, none⟩] = some 3
    ∧ (1 : ℚ) ≤ 2 ∧ (2 : ℚ) ≤ 3 := by
  have h1 : min_latency [⟨true, some 1, none, none⟩, ⟨true, some 3, none, none⟩]
      = some 1 := of_decide_eq_true (by with_unfolding_all rfl)
  have h2 : avg_latency [⟨true, some 1, none, none⟩, ⟨true, some 3, none, none⟩]
      = some 2 := of_decide_eq_true (by with_unfolding_all rfl)
  have h3 : max_latency [⟨true, some 1, none, none⟩, ⟨true, some 3, none, none⟩]
      = some 3 := of_decide_eq_true (by with_unfolding_all rfl)
  have hb := (latency_bounds_amended
    [⟨true, some 1, none, none⟩, ⟨true, some 3, none, none⟩]).1 1 2 3 h1 h2 h3
  exact ⟨h1, h2, h3, hb.1, hb.2⟩

/-- C5.  In every window view, `total_results` equals `success_results +
fail_results`, including the empty window. -/
theorem total_eq_success_add_fail (rows : List PingRow) :
    total_results rows = success_results rows + fail_results rows := by
  unfold total_results success_results fail_results
  induction rows with
  | nil => rfl
  | cons r rest ih =>
    simp only [List.filter_cons, List.length_cons]
    by_cases hr : r.success <;> simp [hr, ih] <;> omega

/-- C6 counterexample.  With the echo utility absent from PATH the
process does not exit with code 1 at startup: startup completes
(`processFate = running`, independent of ping availability) and the
prober thread merely logs and stops. -/
theorem missing_ping_no_startup_exit :
    processFate (.parsed defaultTargets) true false = .running
    ∧ processFate (.parsed defaultTargets) true false ≠
        ProcessFate.exitedAtStartup 1
    ∧ proberLoop false none [⟨0, [], []⟩] =
        [ProbeAction.logError, ProbeAction.threadExit] := by
  exact ⟨rfl, by decide, rfl⟩

/-- C6 amended.  `main` performs no echo-utility startup check: startup
fate is independent of ping availability and a well-formed configuration
yields a running process; a prober that finds no `ping` on PATH logs
once and terminates its own thread without appending rows or spawning
the subprocess, while exit code 1 is reserved for startup failures such
as malformed configuration JSON. -/
theorem missing_ping_not_fatal :
    (∀ (cfg : ConfigRead) (storeOk p p' : Bool),
      processFate cfg storeOk p = processFate cfg storeOk p')
    ∧ (∀ (ts : List (Nat × List Char × List Char)) (p : Bool),
      processFate (.parsed ts) true p = .running)
    ∧ (∀ (rip : Option (List Char)) (iters : List IterInput),
      proberLoop false rip iters = [ProbeAction.logError, ProbeAction.threadExit])
    ∧ (∀ (rip : Option (List Char)) (iters : List IterInput) (r : PingRow),
      ProbeAction.append r ∉ proberLoop false rip iters)
    ∧ (∀ (rip : Option (List Char)) (iters : List IterInput),
      ProbeAction.runPing ∉ proberLoop false rip iters)
    ∧ loadAddresses .malformed = .error 1 := by
  refine ⟨fun cfg storeOk p p' => rfl, fun ts p => rfl, fun rip iters => rfl,
    ?_, ?_, rfl⟩
  · intro rip iters r h
    simp [proberLoop] at h
  · intro rip iters h
    simp [proberLoop] at h

/-- C8.  A hostname target whose initial resolution fails: the prober
publishes the DNS-error outcome with the `dns_fail:` timestamp tag,
sleeps one probe interval and returns — it never invokes the echo
utility and never appends a row, for any remaining lifetime. -/
theorem dns_fail_stops_prober (addr : List Char) (dns : Option (List Char))
    (tsD : List Char) (p : Bool) (iters : List IterInput)
    (hip : isIpv4 addr = false) (hdns : dns = none) :
    pingAddress addr dns tsD p iters =
      [.publish (dnsOutcome tsD), .sleep pingUpdateInterval, .threadExit]
    ∧ (dnsOutcome tsD).pong = "DNS Error".data
    ∧ (dnsOutcome tsD).timestampText = dnsFailTag ++ tsD
    ∧ (∀ r : PingRow, ProbeAction.append r ∉ pingAddress addr dns tsD p iters)
    ∧ ProbeAction.runPing ∉ pingAddress addr dns tsD p iters := by
  subst hdns
  have htr : pingAddress addr none tsD p iters =
      [.publish (dnsOutcome tsD), .sleep pingUpdateInterval, .threadExit] := by
    unfold pingAddress
    rw [hip]
    rfl
  refine ⟨htr, rfl, rfl, ?_, ?_⟩
  · intro r h
    rw [htr] at h
    simp at h
  · rw [htr]
    simp

/-- Witness for C8 at the spec's own scenario `addr = "example.invalid"`. -/
theorem dns_fail_stops_prober_case :
    pingAddress "example.invalid".data none "12:00:00.000".data true
        [⟨0, [], []⟩] =
      [.publish (dnsOutcome "12:00:00.000".data), .sleep pingUpdateInterval,
        .threadExit]
    ∧ (dnsOutcome "12:00:00.000".data).timestampText =
        dnsFailTag ++ "12:00:00.000".data := by
  have h := dns_fail_stops_prober "example.invalid".data none
    "12:00:00.000".data true [⟨0, [], []⟩] (by decide) rfl
  exact ⟨h.1, h.2.2.1⟩

/-- C9 counterexample.  On stdout
`"64x bytes from 1.1.1.1: ttl=64 time=5.25 ms"` the raw parsed latency is
`5.25` and its one-decimal form `5.2` is what the parser carries, but the
non-integer bytes token makes the conversion raise, so the persisted row
stores **no** latency — not the claimed one-decimal value. -/
theorem latency_one_decimal_conv_gap :
    parsePingOutput "64x bytes from 1.1.1.1: ttl=64 time=5.25 ms".data =
      some ⟨some (26 / 5), some "64".data, some "64x".data⟩
    ∧ rawTime "64x bytes from 1.1.1.1: ttl=64 time=5.25 ms".data = some (21 / 4)
    ∧ pyRound1 (21 / 4) = 26 / 5
    ∧ successRow ⟨some (26 / 5), some "64".data, some "64x".data⟩ =
      ⟨true, none, none, none⟩
    ∧ (successRow ⟨some (26 / 5), some "64".data, some "64x".data⟩).latency ≠
      some (pyRound1 (21 / 4)) :=
  of_decide_eq_true (by with_unfolding_all rfl)

/-- C9 amended.  Every latency the parser carries is the `"{:.1f}"`
one-decimal rounding of the raw value parsed after `time=`; whenever the
ttl and bytes conversions succeed, the persisted latency is exactly that
one-decimal value; and the window aggregates are computed over the stored
one-decimal values. -/
theorem latency_one_decimal (out : List Char) (st : ParseOut)
    (h : parsePingOutput out = some st) :
    st.timeStats = (rawTime out).map pyRound1
    ∧ (∀ ti bi, convTok st.ttlTok = some ti → convTok st.bytesTok = some bi →
        (successRow st).latency = (rawTime out).map pyRound1)
    ∧ (∀ xs : List ℚ, xs ≠ [] →
        avg_latency (xs.map fun x => ⟨true, some (pyRound1 x), none, none⟩) =
          some (sqlRound2 (listMean (xs.map pyRound1)))) := by
  refine ⟨parse_timeStats_rawTime h, ?_, ?_⟩
  · intro ti bi hti hbi
    have hrow : successRow st = ⟨true, st.timeStats, ti, bi⟩ := by
      unfold successRow
      rw [hti, hbi]
    rw [hrow]
    exact parse_timeStats_rawTime h
  · intro xs hne
    unfold avg_latency
    rw [succLatencies_map_round]
    rw [if_neg (by simpa using hne)]

/-- Witness for C9 amended: a well-formed probe stores `12.3`, the
one-decimal rounding of the raw `12.3`. -/
theorem latency_one_decimal_case :
    (successRow ⟨some (123 / 10), some "64".data, some "56".data⟩).latency =
      (rawTime "56 bytes from 1.1.1.1: icmp_seq=1 ttl=64 time=12.3 ms".data).map
        pyRound1
    ∧ (rawTime "56 bytes from 1.1.1.1: icmp_seq=1 ttl=64 time=12.3 ms".data).map
        pyRound1 = some (123 / 10) := by
  have hp : parsePingOutput
      "56 bytes from 1.1.1.1: icmp_seq=1 ttl=64 time=12.3 ms".data =
      some ⟨some (123 / 10), some "64".data, some "56".data⟩ :=
    of_decide_eq_true (by with_unfolding_all rfl)
  refine ⟨(latency_one_decimal _ _ hp).2.1 (some 64) (some 56)
    (of_decide_eq_true (by with_unfolding_all rfl))
    (of_decide_eq_true (by with_unfolding_all rfl)), ?_⟩
  exact of_decide_eq_true (by with_unfolding_all rfl)

/-- C10.  The publisher tests the chosen window's `avg_latency` for
truthiness: a `NULL` or exactly-zero average is published as absent in
both the snapshot and the persisted `ping_stats` row, while a non-zero
average is published as its two-decimal rounding. -/
theorem avg_latency_truthiness (tid : Nat) (r15 r5 : Option StatRow)
    (r1 : Option StatRow1) :
    (((chooseStats r15 r5 r1).avg = none ∨ (chooseStats r15 r5 r1).avg = some 0) →
      (publishSnap r15 r5 r1).avgLatency = none
      ∧ (pingStatsRow tid r15 r5 r1).2.1 = none)
    ∧ (∀ a : ℚ, (chooseStats r15 r5 r1).avg = some a → a ≠ 0 →
      (publishSnap r15 r5 r1).avgLatency = some (pyRound2 a)
      ∧ (pingStatsRow tid r15 r5 r1).2.1 = some (pyRound2 a)) := by
  constructor
  · intro h
    have hz : truthyAvg (chooseStats r15 r5 r1).avg = none := by
      rcases h with h | h <;> rw [h] <;> simp [truthyAvg]
    exact ⟨hz, hz⟩
  · intro a ha hne
    have hz : truthyAvg (chooseStats r15 r5 r1).avg = some (pyRound2 a) := by
      rw [ha]
      simp [truthyAvg, hne]
    exact ⟨hz, hz⟩

/-- Witness for C10: a 15-minute window whose average is exactly `0.0`
is published as absent in the snapshot and in `ping_stats`. -/
theorem avg_latency_truthiness_case :
    (chooseStats (some ⟨some 0, some 50, 10⟩) (some ⟨none, none, 0⟩)
        (some ⟨none, none, 0, none⟩)).avg = some 0
    ∧ (publishSnap (some ⟨some 0, some 50, 10⟩) (some ⟨none, none, 0⟩)
        (some ⟨none, none, 0, none⟩)).avgLatency = none
    ∧ (pingStatsRow 1 (some ⟨some 0, some 50, 10⟩) (some ⟨none, none, 0⟩)
        (some ⟨none, none, 0, none⟩)).2.1 = none := by
  have ha : (chooseStats (some ⟨some 0, some 50, 10⟩) (some ⟨none, none, 0⟩)
      (some ⟨none, none, 0, none⟩)).avg = some 0 := by decide
  have h := (avg_latency_truthiness 1 (some ⟨some 0, some 50, 10⟩)
    (some ⟨none, none, 0⟩) (some ⟨none, none, 0, none⟩)).1 (Or.inr ha)
  exact ⟨ha, h.1, h.2⟩

end IcmpMonitor
